import Mathlib

/-!
Shallow embedding of the `async` package (andryhardiyanto/go-async).

The package runs a batch of `(dest, AsyncFunc)` pairs concurrently under an
errgroup, with an optional timeout, and assigns each produced value through
reflection into its destination pointer (`assignResult`).

Modelling choices:
* A Go `any` value produced by an operation is `GoVal`; its dynamic type is
  `GoTy`, and Go assignability between these concrete basic types is type
  identity.
* A destination (`dest any`) is `Dest`: the untyped nil interface, a
  non-pointer value, a typed nil pointer, or a valid pointer to a heap cell.
* The heap of caller-owned slots is `Heap := Nat → GoVal`; a pointer is an
  address.
* An `AsyncFunc` is denoted by its observable behaviour: the time it takes
  (`dur`, used only against the configured timeout) and the `(res, err)` pair
  it returns.  This is recorded in `asyncHolder` next to `dest`, mirroring the
  source struct.
* Concurrency: every unit runs `fn()`, then checks `ctx.Done()`, then binds.
  We model one execution schedule by processing units in completion order
  (the order of the `funcs` list); quantifying over all lists quantifies over
  all completion orders.  The context observed at a unit's check point is
  computed by `ctxErrAt` from the parent state, the configured timeout, the
  unit's completion time and whether an earlier-completing unit has already
  failed (errgroup cancels the group context on first failure).
* `errgroup.Group.Wait` returns the first error returned by any unit, in
  completion order; `execStep` accumulates exactly that.
* Go errors are the inductive `GoError`; `fmt.Errorf("...: %w", e)` is
  `GoError.wrapped msg e` and `errors.Is` is `errorsIs`.
-/

namespace GoAsync

/-- Dynamic Go types occurring in the model (concrete basic types). -/
inductive GoTy
  | int
  | string
  | bool
  deriving DecidableEq

/-- The `%T` rendering of a type. -/
def tyName : GoTy → String
  | GoTy.int => "int"
  | GoTy.string => "string"
  | GoTy.bool => "bool"

/-- A concrete Go value (the non-nil payload of an `any`). -/
inductive GoVal
  | vint (n : Int)
  | vstr (s : String)
  | vbool (b : Bool)
  deriving DecidableEq

/-- Dynamic type of a value (`reflect.ValueOf(res).Type()`). -/
def typeOf : GoVal → GoTy
  | GoVal.vint _ => GoTy.int
  | GoVal.vstr _ => GoTy.string
  | GoVal.vbool _ => GoTy.bool

/-- Go error values reachable in this package.  `wrapped msg e` is
`fmt.Errorf(msg ++ ": %w", e)`; `canceled` and `deadlineExceeded` are
`context.Canceled` and `context.DeadlineExceeded`. -/
inductive GoError
  | opFailure (msg : String)
  | canceled
  | deadlineExceeded
  | invalidDestination (received : String)
  | nilDestination
  | typeMismatch (src dst : String)
  | wrapped (msg : String) (inner : GoError)
  deriving DecidableEq

/-- The `Error()` string of each error, with the exact message texts of
`async.go` (`fmt.Errorf` renders `%w` as the wrapped error's message). -/
def errMsg : GoError → String
  | GoError.opFailure m => m
  | GoError.canceled => "context canceled"
  | GoError.deadlineExceeded => "context deadline exceeded"
  | GoError.invalidDestination r => "destination must be a pointer, received " ++ r
  | GoError.nilDestination => "destination pointer cannot be nil"
  | GoError.typeMismatch s d => "type mismatch: cannot assign " ++ s ++ " to " ++ d
  | GoError.wrapped m inner => m ++ ": " ++ errMsg inner

/-- `errors.Is`: walk the `%w` unwrap chain looking for the target. -/
def errorsIs (e target : GoError) : Bool :=
  if e = target then true
  else
    match e with
    | GoError.wrapped _ inner => errorsIs inner target
    | _ => false

/-- A destination as passed to `Task(dest any, ...)`:
the untyped nil interface, a non-pointer value (described by its `%T` string),
a typed nil pointer `(*T)(nil)`, or a valid pointer `*T` to a heap cell. -/
inductive Dest
  | nilInterface
  | nonPointer (received : String)
  | nilPointer (ty : GoTy)
  | ptr (ty : GoTy) (addr : Nat)
  deriving DecidableEq

/-- The caller-owned slots: a value per address. -/
def Heap : Type := Nat → GoVal

/-- Writing through a pointer (`destElem.Set`). -/
def Heap.update (h : Heap) (a : Nat) (v : GoVal) : Heap :=
  fun x => if x = a then v else h x

/-- `assignResult(dest, res)`: kind check, nil-pointer check, assignability
check, then the write.  Returns the updated heap on success.  For the untyped
nil interface `reflect.ValueOf(nil)` has kind Invalid, which is not Ptr, so it
takes the same branch as a non-pointer with `%T` rendered as `<nil>`. -/
def assignResult (heap : Heap) (dest : Dest) (res : GoVal) : Except GoError Heap :=
  match dest with
  | Dest.nilInterface => Except.error (GoError.invalidDestination "<nil>")
  | Dest.nonPointer r => Except.error (GoError.invalidDestination r)
  | Dest.nilPointer _ => Except.error GoError.nilDestination
  | Dest.ptr ty a =>
      if typeOf res = ty then Except.ok (heap.update a res)
      else Except.error (GoError.typeMismatch (tyName (typeOf res)) (tyName ty))

/-- Message prefix of the cancellation wrap in `asyncTask`. -/
def cancelMsg : String := "async operation was cancelled"

/-- Message prefix of the assignment wrap in `asyncTask`. -/
def assignMsg : String := "failed to assign result"

/-- Body of the closure spawned by `asyncTask`, after `res, err := fn()` has
returned: `cErr` is the context error observed by the `select` (none when
`ctx.Done()` is not yet closed), `dest` the destination, `res`/`opErr` the
operation's results, `heap` the slots.  Returns the heap after any assignment
together with the unit's returned error. -/
def asyncTask (cErr : Option GoError) (dest : Dest) (res : Option GoVal)
    (opErr : Option GoError) (heap : Heap) : Heap × Option GoError :=
  match cErr with
  | some ce => (heap, some (GoError.wrapped cancelMsg ce))
  | none =>
    match dest, res with
    | Dest.nilInterface, _ => (heap, opErr)
    | _, none => (heap, opErr)
    | d, some v =>
      match assignResult heap d v with
      | Except.ok heap2 => (heap2, opErr)
      | Except.error ae => (heap, some (GoError.wrapped assignMsg ae))

/-- One registered task: the source's `asyncHolder` with the `fun` field
denoted by its behaviour — running time `dur` and returned `(res, err)`. -/
structure asyncHolder where
  dest : Dest
  dur : Nat
  res : Option GoVal
  err : Option GoError
  deriving DecidableEq

/-- The batch (source struct `async`): task queue and optional timeout. -/
structure async where
  funcs : List asyncHolder
  timeout : Option Nat
  deriving DecidableEq

/-- `RunInAsync()`: fresh empty batch. -/
def RunInAsync : async := ⟨[], none⟩

/-- `Task(dest, fn)`: append a holder, return the batch for chaining. -/
def async.Task (b : async) (t : asyncHolder) : async :=
  ⟨b.funcs ++ [t], b.timeout⟩

/-- `WithTimeout(d)`: store/overwrite the batch timeout. -/
def async.WithTimeout (b : async) (d : Nat) : async :=
  ⟨b.funcs, some d⟩

/-- Parent context state at the time `Go` is invoked. -/
inductive Parent
  | live
  | canceled
  deriving DecidableEq

/-- The context error a unit observes at its post-operation check point,
given the parent state, the configured timeout, the unit's completion time
`t`, and whether an earlier unit already failed (errgroup cancellation).
A cancelled parent propagates `context.Canceled` through `WithTimeout` and
`errgroup.WithContext`; an expired timeout yields `context.DeadlineExceeded`;
a sibling failure cancels the group context with `context.Canceled`. -/
def ctxErrAt (parent : Parent) (timeout : Option Nat) (t : Nat)
    (gCanceled : Bool) : Option GoError :=
  match parent with
  | Parent.canceled => some GoError.canceled
  | Parent.live =>
    match timeout with
    | some d =>
        if d < t then some GoError.deadlineExceeded
        else if gCanceled then some GoError.canceled else none
    | none => if gCanceled then some GoError.canceled else none

/-- Executor state while joining units in completion order: current heap,
first error returned by a unit so far (what `g.Wait()` will return), and
whether the group context has been cancelled by a unit failure. -/
structure ExecState where
  heap : Heap
  firstErr : Option GoError
  gCanceled : Bool

/-- Process one unit (in completion order): compute the context error at its
check point, run the unit, record its error if it is the first. -/
def execStep (parent : Parent) (timeout : Option Nat) (st : ExecState)
    (t : asyncHolder) : ExecState :=
  let r := asyncTask (ctxErrAt parent timeout t.dur st.gCanceled)
      t.dest t.res t.err st.heap
  ⟨r.1,
   (match st.firstErr with
    | some e => some e
    | none => r.2),
   st.gCanceled || r.2.isSome⟩

/-- `Go(ctx)`: derive the effective context (timeout applied inside
`ctxErrAt`), run every unit, return the final heap and `g.Wait()`'s result
(first unit error, or nil). -/
def async.Go (b : async) (parent : Parent) (heap : Heap) : Heap × Option GoError :=
  let st := b.funcs.foldl (execStep parent b.timeout) ⟨heap, none, false⟩
  (st.heap, st.firstErr)

/-- The unit error of a task is independent of the heap (only the assignment
*write* touches the heap, never the error decision), so it can be computed
against a dummy heap. -/
def zeroHeap : Heap := fun _ => GoVal.vint 0

/-- The error a unit returns, as a function of context inputs and the task
alone. -/
def unitErr (parent : Parent) (timeout : Option Nat) (gCanceled : Bool)
    (t : asyncHolder) : Option GoError :=
  (asyncTask (ctxErrAt parent timeout t.dur gCanceled) t.dest t.res t.err zeroHeap).2

/-- A task whose binding step cannot fail: nil destination interface, nil
result, or an assignable value into a valid pointer. -/
def bindOk (t : asyncHolder) : Prop :=
  match t.dest, t.res with
  | Dest.nilInterface, _ => True
  | _, none => True
  | Dest.ptr ty _, some v => typeOf v = ty
  | _, some _ => False

/-- A fully successful task: valid pointer destination, assignable non-nil
value, no operation error. -/
def validTask (t : asyncHolder) : Prop :=
  ∃ ty a v, t.dest = Dest.ptr ty a ∧ t.res = some v ∧ typeOf v = ty ∧ t.err = none

/-- Address written by a task (0 for non-pointer destinations, unused then). -/
def taskAddr (t : asyncHolder) : Nat :=
  match t.dest with
  | Dest.ptr _ a => a
  | _ => 0

/-- Value a task's operation produced (dummy for nil results, unused then). -/
def taskVal (t : asyncHolder) : GoVal :=
  match t.res with
  | some v => v
  | none => GoVal.vint 0

/-! Helper lemmas about the executor fold. -/

/-- Projection of `Go`'s returned error onto the fold. -/
lemma go_snd (b : async) (p : Parent) (h : Heap) :
    (async.Go b p h).2
      = (b.funcs.foldl (execStep p b.timeout) ⟨h, none, false⟩).firstErr := rfl

/-- Projection of `Go`'s final heap onto the fold. -/
lemma go_fst (b : async) (p : Parent) (h : Heap) :
    (async.Go b p h).1
      = (b.funcs.foldl (execStep p b.timeout) ⟨h, none, false⟩).heap := rfl

/-- Once a first error is recorded, `g.Wait()` returns it: later units cannot
replace it. -/
lemma foldl_firstErr_persist (p : Parent) (tmo : Option Nat) (e : GoError) :
    ∀ (ts : List asyncHolder) (st : ExecState), st.firstErr = some e →
      (ts.foldl (execStep p tmo) st).firstErr = some e := by
  intro ts
  induction ts with
  | nil => intro st hst; simpa using hst
  | cons t ts ih =>
    intro st hst
    simp only [List.foldl_cons]
    exact ih _ (by simp [execStep, hst])

/-- The error a unit returns does not depend on the heap contents: only the
assignment write touches the heap, never the error decision. -/
lemma asyncTask_snd_heap (cErr : Option GoError) (d : Dest) (r : Option GoVal)
    (e : Option GoError) (h h2 : Heap) :
    (asyncTask cErr d r e h).2 = (asyncTask cErr d r e h2).2 := by
  cases cErr with
  | some ce => rfl
  | none =>
    cases d with
    | nilInterface => cases r <;> rfl
    | nonPointer s => cases r <;> rfl
    | nilPointer ty => cases r <;> rfl
    | ptr ty a =>
      cases r with
      | none => rfl
      | some v =>
        by_cases hty : typeOf v = ty <;> simp [asyncTask, assignResult, hty]

/-- A unit's returned error, computed against the real heap, equals `unitErr`. -/
lemma asyncTask_snd_unitErr (p : Parent) (tmo : Option Nat) (gc : Bool)
    (t : asyncHolder) (h : Heap) :
    (asyncTask (ctxErrAt p tmo t.dur gc) t.dest t.res t.err h).2 = unitErr p tmo gc t :=
  asyncTask_snd_heap _ _ _ _ h zeroHeap

/-- If a task's binding step cannot fail and the context check passes, the unit
returns exactly the operation's error (verbatim, unwrapped). -/
lemma asyncTask_bindOk (t : asyncHolder) (h : Heap) (hb : bindOk t) :
    (asyncTask none t.dest t.res t.err h).2 = t.err := by
  obtain ⟨d, dur, r, e⟩ := t
  cases d <;> cases r <;> simp_all [bindOk, asyncTask, assignResult]

/-- Folding over units that all return no error leaves the executor with no
first error and the group context uncancelled. -/
lemma foldl_no_error (p : Parent) (tmo : Option Nat) :
    ∀ (ts : List asyncHolder) (h : Heap),
      (∀ t ∈ ts, unitErr p tmo false t = none) →
      ∃ h2, ts.foldl (execStep p tmo) ⟨h, none, false⟩ = ⟨h2, none, false⟩ := by
  intro ts
  induction ts with
  | nil => intro h _; exact ⟨h, rfl⟩
  | cons t ts ih =>
    intro h hall
    have ht : unitErr p tmo false t = none := hall t (by simp)
    have hsnd := asyncTask_snd_unitErr p tmo false t h
    have hstep : execStep p tmo ⟨h, none, false⟩ t
        = ⟨(asyncTask (ctxErrAt p tmo t.dur false) t.dest t.res t.err h).1,
           none, false⟩ := by
      simp [execStep, hsnd, ht]
    simp only [List.foldl_cons, hstep]
    exact ih _ fun u hu => hall u (by simp [hu])

/-- Fan-out induction: over fully successful tasks the executor records no
error, never cancels the group, writes each task's value to its address, and
leaves every other address untouched. -/
lemma fanout_aux (tmo : Option Nat) :
    ∀ (ts : List asyncHolder) (h : Heap),
      (∀ t ∈ ts, ctxErrAt Parent.live tmo t.dur false = none) →
      (∀ t ∈ ts, validTask t) →
      ∃ h2, ts.foldl (execStep Parent.live tmo) ⟨h, none, false⟩ = ⟨h2, none, false⟩ ∧
        (∀ a, a ∉ ts.map taskAddr → h2 a = h a) ∧
        ((ts.Pairwise fun s u => taskAddr s ≠ taskAddr u) →
          ∀ t ∈ ts, h2 (taskAddr t) = taskVal t) := by
  intro ts
  induction ts with
  | nil =>
    intro h _ _
    exact ⟨h, rfl, fun a _ => rfl, fun _ t ht => absurd ht (List.not_mem_nil t)⟩
  | cons t ts ih =>
    intro h hctx hall
    obtain ⟨ty, a, v, hdest, hres, hty, herr⟩ := hall t (by simp)
    have hct : ctxErrAt Parent.live tmo t.dur false = none := hctx t (by simp)
    have hstep : execStep Parent.live tmo ⟨h, none, false⟩ t
        = ⟨h.update a v, none, false⟩ := by
      simp [execStep, hct, asyncTask, hdest, hres, herr, assignResult, hty]
    obtain ⟨h2, hfold, huntouched, hwrites⟩ :=
      ih (h.update a v) (fun u hu => hctx u (by simp [hu]))
        (fun u hu => hall u (by simp [hu]))
    have haddr : taskAddr t = a := by simp [taskAddr, hdest]
    have hval : taskVal t = v := by simp [taskVal, hres]
    refine ⟨h2, ?_, ?_, ?_⟩
    · simp only [List.foldl_cons, hstep]; exact hfold
    · intro x hx
      simp only [List.map_cons, List.mem_cons, not_or] at hx
      rw [huntouched x hx.2, Heap.update]
      rw [haddr] at hx
      simp [hx.1]
    · intro hpw u hu
      rcases List.pairwise_cons.mp hpw with ⟨hhead, htail⟩
      rcases List.mem_cons.mp hu with rfl | hu2
      · have hnot : taskAddr u ∉ ts.map taskAddr := by
          simp only [List.mem_map, not_exists, not_and]
          intro w hw hww
          exact hhead w hw hww.symm
        rw [huntouched _ hnot, haddr, hval, Heap.update]
        simp
      · exact hwrites htail u hu2

/-! Claim theorems. -/

/-- C1 (fan-out correctness): for every batch of tasks whose slots are
distinct valid pointers, whose operations each succeed with a value assignable
to their slot's pointed-to type, and whose context is never cancelled (live
parent, no check point past the deadline), `Go` returns success and afterwards
every slot holds exactly the value its operation produced, for any number of
tasks and any completion order (the task list is the completion order, and the
statement holds for every list). -/
theorem go_fan_out (ts : List asyncHolder) (tmo : Option Nat) (h : Heap)
    (hctx : ∀ t ∈ ts, ctxErrAt Parent.live tmo t.dur false = none)
    (hv : ∀ t ∈ ts, validTask t)
    (hd : ts.Pairwise fun s u => taskAddr s ≠ taskAddr u) :
    (async.Go ⟨ts, tmo⟩ Parent.live h).2 = none ∧
    ∀ t ∈ ts, (async.Go ⟨ts, tmo⟩ Parent.live h).1 (taskAddr t) = taskVal t := by
  obtain ⟨h2, hfold, _, hwrites⟩ := fanout_aux tmo ts h hctx hv
  constructor
  · rw [go_snd]; simp [hfold]
  · intro t ht
    rw [go_fst]
    simp only [hfold]
    exact hwrites hd t ht

/-- Concrete two-task instance of C1 (the spec's example scenario: 42 into an
int slot, "hello" into a string slot). -/
theorem go_fan_out_witness :
    (async.Go ⟨[⟨Dest.ptr GoTy.int 0, 1, some (GoVal.vint 42), none⟩,
                ⟨Dest.ptr GoTy.string 1, 2, some (GoVal.vstr "hello"), none⟩],
        none⟩ Parent.live zeroHeap).2 = none ∧
    (async.Go ⟨[⟨Dest.ptr GoTy.int 0, 1, some (GoVal.vint 42), none⟩,
                ⟨Dest.ptr GoTy.string 1, 2, some (GoVal.vstr "hello"), none⟩],
        none⟩ Parent.live zeroHeap).1 0 = GoVal.vint 42 ∧
    (async.Go ⟨[⟨Dest.ptr GoTy.int 0, 1, some (GoVal.vint 42), none⟩,
                ⟨Dest.ptr GoTy.string 1, 2, some (GoVal.vstr "hello"), none⟩],
        none⟩ Parent.live zeroHeap).1 1 = GoVal.vstr "hello" := by
  obtain ⟨h1, h2⟩ := go_fan_out
    [⟨Dest.ptr GoTy.int 0, 1, some (GoVal.vint 42), none⟩,
     ⟨Dest.ptr GoTy.string 1, 2, some (GoVal.vstr "hello"), none⟩]
    none zeroHeap
    (fun t _ => rfl)
    (by
      intro t ht
      rcases List.mem_cons.mp ht with rfl | ht2
      · exact ⟨GoTy.int, 0, GoVal.vint 42, rfl, rfl, rfl, rfl⟩
      rcases List.mem_cons.mp ht2 with rfl | ht3
      · exact ⟨GoTy.string, 1, GoVal.vstr "hello", rfl, rfl, rfl, rfl⟩
      exact absurd ht3 (List.not_mem_nil t))
    (by decide)
  refine ⟨h1, ?_, ?_⟩
  · have := h2 ⟨Dest.ptr GoTy.int 0, 1, some (GoVal.vint 42), none⟩ (by simp)
    simpa [taskAddr, taskVal] using this
  · have := h2 ⟨Dest.ptr GoTy.string 1, 2, some (GoVal.vstr "hello"), none⟩ (by simp)
    simpa [taskAddr, taskVal] using this

/-- C2 (first-error propagation, verbatim): if some task's operation returns
an error, the context is not cancelled at that unit's check point, its binding
step cannot fail, and every unit completing before it returned no error, then
`Go` returns exactly that operation's error (unwrapped); and if no unit fails,
`Go` returns success. -/
theorem go_first_error_propagation :
    (∀ (p : Parent) (tmo : Option Nat) (pre post : List asyncHolder)
       (t : asyncHolder) (e : GoError) (h : Heap),
       (∀ u ∈ pre, unitErr p tmo false u = none) →
       ctxErrAt p tmo t.dur false = none →
       t.err = some e →
       bindOk t →
       (async.Go ⟨pre ++ t :: post, tmo⟩ p h).2 = some e)
  ∧ (∀ (p : Parent) (tmo : Option Nat) (ts : List asyncHolder) (h : Heap),
       (∀ u ∈ ts, unitErr p tmo false u = none) →
       (async.Go ⟨ts, tmo⟩ p h).2 = none) := by
  constructor
  · intro p tmo pre post t e h hpre hctx herr hb
    obtain ⟨h2, hfold⟩ := foldl_no_error p tmo pre h hpre
    have hsnd : (asyncTask (ctxErrAt p tmo t.dur false) t.dest t.res t.err h2).2
        = some e := by
      rw [hctx, asyncTask_bindOk t h2 hb, herr]
    rw [go_snd]
    simp only [List.foldl_append, List.foldl_cons, hfold]
    exact foldl_firstErr_persist p tmo e post _ (by simp [execStep, hsnd])
  · intro p tmo ts h hall
    obtain ⟨h2, hfold⟩ := foldl_no_error p tmo ts h hall
    rw [go_snd]
    simp [hfold]

/-- Concrete instance of C2: a succeeding unit completes first, then a unit
whose operation fails with "boom"; `Go` returns exactly that error. -/
theorem go_first_error_witness :
    (async.Go ⟨[⟨Dest.ptr GoTy.int 0, 1, some (GoVal.vint 7), none⟩,
                ⟨Dest.nilInterface, 2, none, some (GoError.opFailure "boom")⟩,
                ⟨Dest.ptr GoTy.int 1, 3, some (GoVal.vint 9), none⟩], none⟩
       Parent.live zeroHeap).2 = some (GoError.opFailure "boom") := by
  have := go_first_error_propagation.1 Parent.live none
    [⟨Dest.ptr GoTy.int 0, 1, some (GoVal.vint 7), none⟩]
    [⟨Dest.ptr GoTy.int 1, 3, some (GoVal.vint 9), none⟩]
    ⟨Dest.nilInterface, 2, none, some (GoError.opFailure "boom")⟩
    (GoError.opFailure "boom") zeroHeap
    (by decide) rfl rfl trivial
  simpa using this

/-- C3 (timeout precedence and classifiability): a batch with timeout `d`
whose sole task takes longer than `d` makes `Go` return the cancellation wrap
of `context.DeadlineExceeded`; `errors.Is` classifies it as deadline exceeded,
not as `context.Canceled`, and not as any plain operation failure. -/
theorem go_timeout_deadline (d : Nat) (t : asyncHolder) (h : Heap)
    (hd : d < t.dur) :
    (async.Go ⟨[t], some d⟩ Parent.live h).2
      = some (GoError.wrapped cancelMsg GoError.deadlineExceeded) ∧
    errorsIs (GoError.wrapped cancelMsg GoError.deadlineExceeded)
      GoError.deadlineExceeded = true ∧
    errorsIs (GoError.wrapped cancelMsg GoError.deadlineExceeded)
      GoError.canceled = false ∧
    ∀ m, errorsIs (GoError.wrapped cancelMsg GoError.deadlineExceeded)
      (GoError.opFailure m) = false := by
  refine ⟨?_, by decide, by decide, ?_⟩
  · rw [go_snd]
    simp [execStep, ctxErrAt, hd, asyncTask]
  · intro m
    simp [errorsIs, errMsg]

/-- Concrete instance of C3: timeout 2, operation takes 5. -/
theorem go_timeout_deadline_witness :
    (async.Go ⟨[⟨Dest.ptr GoTy.int 0, 5, some (GoVal.vint 1), none⟩], some 2⟩
       Parent.live zeroHeap).2
      = some (GoError.wrapped cancelMsg GoError.deadlineExceeded) ∧
    errorsIs (GoError.wrapped cancelMsg GoError.deadlineExceeded)
      GoError.deadlineExceeded = true := by
  have := go_timeout_deadline 2
    ⟨Dest.ptr GoTy.int 0, 5, some (GoVal.vint 1), none⟩ zeroHeap (by decide)
  exact ⟨this.1, this.2.1⟩

/-- C4 (pre-cancelled context): on a non-empty batch, a cancelled parent makes
every unit observe cancellation at its check point, so `Go` returns the
cancellation wrap of the context's error, classifiable with `errors.Is`; and a
unit observing cancellation reports the cancellation error instead of
processing its operation's result (the heap is untouched, the result and the
operation's own error are both discarded). -/
theorem go_pre_canceled_ctx :
    (∀ (ts : List asyncHolder) (tmo : Option Nat) (h : Heap), ts ≠ [] →
       (async.Go ⟨ts, tmo⟩ Parent.canceled h).2
         = some (GoError.wrapped cancelMsg GoError.canceled) ∧
       errorsIs (GoError.wrapped cancelMsg GoError.canceled)
         GoError.canceled = true)
  ∧ (∀ (ce : GoError) (d2 : Dest) (r : Option GoVal) (e : Option GoError)
       (h : Heap),
       asyncTask (some ce) d2 r e h
         = (h, some (GoError.wrapped cancelMsg ce))) := by
  constructor
  · intro ts tmo h hne
    refine ⟨?_, by decide⟩
    cases ts with
    | nil => exact absurd rfl hne
    | cons t ts2 =>
      have hstep : execStep Parent.canceled tmo ⟨h, none, false⟩ t
          = ⟨h, some (GoError.wrapped cancelMsg GoError.canceled), true⟩ := by
        simp [execStep, ctxErrAt, asyncTask]
      rw [go_snd]
      simp only [List.foldl_cons, hstep]
      exact foldl_firstErr_persist Parent.canceled tmo _ ts2 _ rfl
  · intro ce d2 r e h
    rfl

/-- Concrete instance of C4: one quickly-succeeding task under a cancelled
parent still yields the cancellation error. -/
theorem go_pre_canceled_witness :
    (async.Go ⟨[⟨Dest.ptr GoTy.int 0, 1, some (GoVal.vint 42), none⟩], none⟩
       Parent.canceled zeroHeap).2
      = some (GoError.wrapped cancelMsg GoError.canceled) :=
  (go_pre_canceled_ctx.1
    [⟨Dest.ptr GoTy.int 0, 1, some (GoVal.vint 42), none⟩] none zeroHeap
    (by decide)).1

/-- C5 (destination validation): a typed nil pointer slot fails the binder
with the nil-destination error whose message is "destination pointer cannot be
nil"; a non-pointer slot fails with the invalid-destination error whose
message starts "destination must be a pointer"; each case, when the operation
produced a value, surfaces through `Go`'s returned error wrapped as a
result-assignment failure (no panic: every case is a returned error value). -/
theorem go_destination_validation :
    (∀ (h : Heap) (ty : GoTy) (v : GoVal),
       assignResult h (Dest.nilPointer ty) v
         = Except.error GoError.nilDestination)
  ∧ errMsg GoError.nilDestination = "destination pointer cannot be nil"
  ∧ (∀ (h : Heap) (r : String) (v : GoVal),
       assignResult h (Dest.nonPointer r) v
         = Except.error (GoError.invalidDestination r))
  ∧ (∀ r, errMsg (GoError.invalidDestination r)
       = "destination must be a pointer, received " ++ r)
  ∧ (∀ (ty : GoTy) (dur : Nat) (v : GoVal) (h : Heap),
       (async.Go ⟨[⟨Dest.nilPointer ty, dur, some v, none⟩], none⟩
          Parent.live h).2
         = some (GoError.wrapped assignMsg GoError.nilDestination))
  ∧ (∀ (r : String) (dur : Nat) (v : GoVal) (h : Heap),
       (async.Go ⟨[⟨Dest.nonPointer r, dur, some v, none⟩], none⟩
          Parent.live h).2
         = some (GoError.wrapped assignMsg (GoError.invalidDestination r))) := by
  refine ⟨fun h ty v => rfl, rfl, fun h r v => rfl, fun r => rfl, ?_, ?_⟩
  · intro ty dur v h
    rw [go_snd]
    simp [execStep, ctxErrAt, asyncTask, assignResult]
  · intro r dur v h
    rw [go_snd]
    simp [execStep, ctxErrAt, asyncTask, assignResult]

/-- C6 (type-mismatch atomicity): a produced value whose type is not
assignable to the slot's pointed-to type fails the binder with the
type-mismatch error before any write, and `Go` returns it wrapped as a
result-assignment failure with the heap left exactly as it was. -/
theorem go_type_mismatch_unmodified (ty : GoTy) (a : Nat) (v : GoVal)
    (dur : Nat) (h : Heap) (hm : typeOf v ≠ ty) :
    assignResult h (Dest.ptr ty a) v
      = Except.error (GoError.typeMismatch (tyName (typeOf v)) (tyName ty)) ∧
    async.Go ⟨[⟨Dest.ptr ty a, dur, some v, none⟩], none⟩ Parent.live h
      = (h, some (GoError.wrapped assignMsg
          (GoError.typeMismatch (tyName (typeOf v)) (tyName ty)))) := by
  constructor
  · simp [assignResult, hm]
  · simp [async.Go, execStep, ctxErrAt, asyncTask, assignResult, hm]

/-- Concrete instance of C6: assigning the int 42 to a string slot. -/
theorem go_type_mismatch_witness :
    assignResult zeroHeap (Dest.ptr GoTy.string 0) (GoVal.vint 42)
      = Except.error (GoError.typeMismatch "int" "string") ∧
    async.Go ⟨[⟨Dest.ptr GoTy.string 0, 1, some (GoVal.vint 42), none⟩], none⟩
        Parent.live zeroHeap
      = (zeroHeap, some (GoError.wrapped assignMsg
          (GoError.typeMismatch "int" "string"))) :=
  go_type_mismatch_unmodified GoTy.string 0 (GoVal.vint 42) 1 zeroHeap
    (by decide)

/-- C7 (nil-result tolerance): a unit whose operation returns nil value and
nil error leaves the heap untouched and reports no error, and a batch of such
a task returns success with the heap unchanged. -/
theorem go_nil_result_tolerance (t : asyncHolder) (h : Heap)
    (hr : t.res = none) (he : t.err = none) :
    asyncTask none t.dest t.res t.err h = (h, none) ∧
    async.Go ⟨[t], none⟩ Parent.live h = (h, none) := by
  obtain ⟨d, dur, r, e⟩ := t
  replace hr : r = none := hr
  replace he : e = none := he
  subst hr
  subst he
  constructor
  · cases d <;> rfl
  · cases d <;> simp [async.Go, execStep, ctxErrAt, asyncTask]

/-- Concrete instance of C7: an int-slot task whose operation returns
`(nil, nil)`. -/
theorem go_nil_result_witness :
    asyncTask none (Dest.ptr GoTy.int 0) none none zeroHeap = (zeroHeap, none) ∧
    async.Go ⟨[⟨Dest.ptr GoTy.int 0, 1, none, none⟩], none⟩ Parent.live zeroHeap
      = (zeroHeap, none) :=
  go_nil_result_tolerance ⟨Dest.ptr GoTy.int 0, 1, none, none⟩ zeroHeap rfl rfl

/-- C8 (implicit: validation is conditional): with the untyped nil interface
as destination a unit skips the binder entirely and just reports its
operation's error (the produced value is silently discarded); with a nil
result the binder is skipped for any destination; in particular a
nil-destination task whose operation succeeds with a value yields overall
success, not a nil-destination error. -/
theorem go_nil_dest_skip (dur : Nat) (v : GoVal) (e : Option GoError)
    (h : Heap) :
    asyncTask none Dest.nilInterface (some v) e h = (h, e) ∧
    (∀ d2 : Dest, asyncTask none d2 none e h = (h, e)) ∧
    async.Go ⟨[⟨Dest.nilInterface, dur, some v, none⟩], none⟩ Parent.live h
      = (h, none) := by
  refine ⟨rfl, fun d2 => ?_, ?_⟩
  · cases d2 <;> rfl
  · simp [async.Go, execStep, ctxErrAt, asyncTask]

/-- C9 (implicit: simultaneous value and error): when an operation returns
both a value and an error and the value binds into the slot, the unit writes
the slot and still reports the operation's error (also through `Go` on a
single-task batch); when the binding fails instead, the unit reports the
wrapped binding error, masking the operation's error. -/
theorem go_value_with_error (ty : GoTy) (a : Nat) (v : GoVal) (e : GoError)
    (dur : Nat) (h : Heap) (hty : typeOf v = ty) :
    asyncTask none (Dest.ptr ty a) (some v) (some e) h
      = (h.update a v, some e) ∧
    async.Go ⟨[⟨Dest.ptr ty a, dur, some v, some e⟩], none⟩ Parent.live h
      = (h.update a v, some e) ∧
    (∀ (d2 : Dest) (r : GoVal) (ae : GoError) (hp : Heap),
       d2 ≠ Dest.nilInterface →
       assignResult hp d2 r = Except.error ae →
       asyncTask none d2 (some r) (some e) hp
         = (hp, some (GoError.wrapped assignMsg ae))) := by
  refine ⟨?_, ?_, ?_⟩
  · simp [asyncTask, assignResult, hty]
  · simp [async.Go, execStep, ctxErrAt, asyncTask, assignResult, hty]
  · intro d2 r ae hp hne hae
    cases d2 with
    | nilInterface => exact absurd rfl hne
    | nonPointer s => simp [asyncTask, hae]
    | nilPointer ty2 => simp [asyncTask, hae]
    | ptr ty2 a2 => simp [asyncTask, hae]

/-- Concrete instance of C9: value 42 and error "op failed" together — the
slot is written and the operation error is returned. -/
theorem go_value_with_error_witness :
    asyncTask none (Dest.ptr GoTy.int 0) (some (GoVal.vint 42))
        (some (GoError.opFailure "op failed")) zeroHeap
      = (zeroHeap.update 0 (GoVal.vint 42), some (GoError.opFailure "op failed")) ∧
    async.Go ⟨[⟨Dest.ptr GoTy.int 0, 1, some (GoVal.vint 42),
        some (GoError.opFailure "op failed")⟩], none⟩ Parent.live zeroHeap
      = (zeroHeap.update 0 (GoVal.vint 42),
         some (GoError.opFailure "op failed")) := by
  have := go_value_with_error GoTy.int 0 (GoVal.vint 42)
    (GoError.opFailure "op failed") 1 zeroHeap rfl
  exact ⟨this.1, this.2.1⟩

/-- C10 (empty batch): `Go` on a batch with zero registered tasks returns
success immediately with the heap untouched, with or without a configured
timeout, for a non-cancelled parent context. -/
theorem go_empty_batch (tmo : Option Nat) (p : Parent) (h : Heap)
    (hp : p = Parent.live) :
    async.Go ⟨[], tmo⟩ p h = (h, none) := by
  subst hp
  rfl

/-- Concrete instance of C10: empty batch with a timeout configured. -/
theorem go_empty_batch_witness :
    async.Go ⟨[], some 5⟩ Parent.live zeroHeap = (zeroHeap, none) :=
  go_empty_batch (some 5) Parent.live zeroHeap rfl

end GoAsync
